import Mathlib

/-!
Shallow embedding, in Lean 4, of the decision logic of the
company-auto-apply repository:

* `ai_modules/job_classifier.py` — keyword scoring, rule-based
  classification, the model-stage parse, arbitration, short-circuit and
  the `should_apply_to_job` gate;
* `main.py` — salary extraction and the salary filter, plus the
  dedup-checking driver loop;
* `automation/company_applier.py` — the element-search strategies for
  the apply button, personal-info fields, file uploads and the
  cover-letter textarea;
* `tracking/application_tracker.py` — the application store keyed by
  job URL.

Python strings are Lean `String`s, Python `in` (substring test) is
`strContainsSub`, Python `.lower()` is `lowerStr`, and Python floats
carrying confidences are modelled as exact rationals `ℚ`.  External
effects (the LLM call, the live DOM) are modelled as explicit inputs:
an `AIResponse` value for the model call, a list of `Element`s for the
page.  Interpolated log strings are abstracted; the structured content
of every `analysis` dictionary (scores, sub-results, agreement flag,
chosen branch) is kept in the `Analysis` type.
-/

namespace AutoApply

/-- Python's substring test `needle in hay`, on the underlying character
lists.  The empty needle is contained in every string, as in Python. -/
def strContainsSub (hay needle : String) : Bool :=
  hay.data.tails.any (fun t => needle.data.isPrefixOf t)

/-- Python's `str.lower()` (the texts involved are ASCII), on the
underlying character list. -/
def lowerStr (s : String) : String :=
  ⟨s.data.map Char.toLower⟩

/-- `JobRole` enum from `ai_modules/job_classifier.py`. -/
inductive JobRole where
  | AI_ENGINEER
  | CLOUD_ENGINEER
  | DATA_SCIENTIST
  | SECURITY_ANALYST
  | OTHER
deriving DecidableEq, Repr

/-- The `JobPosting` dataclass from `scrapers/company_scraper.py`. -/
structure JobPosting where
  title : String
  company : String
  location : String
  description : String
  requirements : String
  url : String
  salary : String
  job_type : String
  posted_date : String
  department : String
deriving DecidableEq, Repr

/-- One entry of the `role_patterns` dictionary. -/
structure RolePattern where
  primary_keywords : List String
  secondary_keywords : List String
  anti_keywords : List String
deriving DecidableEq, Repr

/-- The `JobRole.AI_ENGINEER` entry of the `role_patterns` dictionary. -/
def aiEngineerPattern : RolePattern :=
  { primary_keywords :=
      [ "ai engineer", "artificial intelligence", "machine learning engineer",
        "ml engineer", "deep learning", "neural networks", "llm", "nlp",
        "computer vision", "pytorch", "tensorflow", "transformers",
        "ai research", "applied scientist", "ml platform", "mlops" ],
    secondary_keywords :=
      [ "python", "keras", "scikit-learn", "pandas", "numpy",
        "model deployment", "model training", "feature engineering",
        "recommender systems", "reinforcement learning", "gpt", "bert" ],
    anti_keywords :=
      [ "purely frontend", "marketing", "sales", "business development" ] }

/-- The `JobRole.CLOUD_ENGINEER` entry of `role_patterns`. -/
def cloudEngineerPattern : RolePattern :=
  { primary_keywords :=
      [ "cloud engineer", "devops", "sre", "site reliability",
        "infrastructure", "kubernetes", "docker", "aws", "gcp", "azure",
        "terraform", "ansible", "jenkins", "ci/cd", "platform engineer" ],
    secondary_keywords :=
      [ "monitoring", "prometheus", "grafana", "microservices",
        "containerization", "orchestration", "automation", "scaling",
        "load balancing", "networking", "security", "compliance" ],
    anti_keywords :=
      [ "frontend only", "marketing", "sales", "business development" ] }

/-- The `JobRole.DATA_SCIENTIST` entry of `role_patterns`. -/
def dataScientistPattern : RolePattern :=
  { primary_keywords :=
      [ "data scientist", "data science", "analytics", "statistical analysis",
        "predictive modeling", "data mining", "business intelligence",
        "data analyst", "quantitative analyst", "research scientist" ],
    secondary_keywords :=
      [ "python", "r", "sql", "tableau", "pandas", "numpy", "scipy",
        "statistics", "hypothesis testing", "a/b testing", "visualization",
        "reporting", "dashboard", "insights", "experimentation" ],
    anti_keywords :=
      [ "purely engineering", "infrastructure only", "marketing", "sales" ] }

/-- The `JobRole.SECURITY_ANALYST` entry of `role_patterns`. -/
def securityAnalystPattern : RolePattern :=
  { primary_keywords :=
      [ "security analyst", "cybersecurity analyst", "soc analyst",
        "information security", "cyber security", "security engineer",
        "incident response", "threat analysis", "vulnerability assessment",
        "security operations", "infosec", "cybersecurity specialist" ],
    secondary_keywords :=
      [ "siem", "splunk", "wireshark", "nessus", "metasploit", "burp suite",
        "penetration testing", "ethical hacking", "malware analysis",
        "forensics", "compliance", "risk assessment", "firewall", "ids",
        "ips", "threat hunting", "security monitoring", "cissp", "ceh",
        "sans", "nist", "iso 27001", "pci dss", "gdpr", "hipaa" ],
    anti_keywords :=
      [ "purely sales", "marketing only", "business development only" ] }

/-- The `role_patterns` dictionary of `JobClassifier.__init__`, in its
insertion order. -/
def rolePatterns : List (JobRole × RolePattern) :=
  [ (JobRole.AI_ENGINEER, aiEngineerPattern),
    (JobRole.CLOUD_ENGINEER, cloudEngineerPattern),
    (JobRole.DATA_SCIENTIST, dataScientistPattern),
    (JobRole.SECURITY_ANALYST, securityAnalystPattern) ]

/-- The search text of `_rule_based_classification`:
`(job.title + " " + job.description + " " + job.requirements).lower()`. -/
def jobText (job : JobPosting) : String :=
  lowerStr (job.title ++ " " ++ job.description ++ " " ++ job.requirements)

/-- The primary keywords of a pattern found in the text (each adds 2 to
the raw score and is appended to `matched_keywords`). -/
def matchedPrimary (text : String) (p : RolePattern) : List String :=
  p.primary_keywords.filter (fun k => strContainsSub text k)

/-- The secondary keywords of a pattern found in the text (each adds 1). -/
def matchedSecondary (text : String) (p : RolePattern) : List String :=
  p.secondary_keywords.filter (fun k => strContainsSub text k)

/-- The anti-keywords of a pattern found in the text (each subtracts 3). -/
def matchedAnti (text : String) (p : RolePattern) : List String :=
  p.anti_keywords.filter (fun k => strContainsSub text k)

/-- The raw keyword score accumulated by the three loops of
`_rule_based_classification`: `+2` per matched primary keyword, `+1`
per matched secondary keyword, `-3` per matched anti-keyword. -/
def rawScore (text : String) (p : RolePattern) : ℤ :=
  2 * (matchedPrimary text p).length + (matchedSecondary text p).length
    - 3 * (matchedAnti text p).length

/-- `matched_keywords`: primaries then secondaries, in list order. -/
def matchedKeywords (text : String) (p : RolePattern) : List String :=
  matchedPrimary text p ++ matchedSecondary text p

/-- `max_possible_score = len(primary) * 2 + len(secondary)`. -/
def maxPossibleScore (p : RolePattern) : ℕ :=
  p.primary_keywords.length * 2 + p.secondary_keywords.length

/-- `normalized_score = max(0, score / max_possible_score) if
max_possible_score > 0 else 0`. -/
def normalizedScore (text : String) (p : RolePattern) : ℚ :=
  if maxPossibleScore p > 0 then
    max 0 ((rawScore text p : ℚ) / (maxPossibleScore p : ℚ))
  else 0

/-- The per-role entry stored in `role_scores`. -/
structure RoleScore where
  score : ℚ
  matched_keywords : List String
  raw_score : ℤ
deriving DecidableEq, Repr

/-- The `role_scores` dictionary built by `_rule_based_classification`,
as an association list in the iteration order of `role_patterns`. -/
def roleScores (job : JobPosting) : List (JobRole × RoleScore) :=
  rolePatterns.map (fun rp =>
    (rp.1,
     { score := normalizedScore (jobText job) rp.2,
       matched_keywords := matchedKeywords (jobText job) rp.2,
       raw_score := rawScore (jobText job) rp.2 }))

/-- One fold step of Python's `max(keys, key=score)`: the accumulator is
replaced only on a strictly greater score, so the first maximum in
iteration order wins. -/
def bestStep (b x : JobRole × RoleScore) : JobRole × RoleScore :=
  if x.2.score > b.2.score then x else b

/-- `best_role = max(role_scores.keys(), key=lambda r: role_scores[r]["score"])`
(paired with its stored entry).  The empty case never arises:
`role_scores` always has the four keys of `role_patterns`. -/
def bestRole : List (JobRole × RoleScore) → JobRole × RoleScore
  | [] => (JobRole.OTHER, { score := 0, matched_keywords := [], raw_score := 0 })
  | x :: xs => xs.foldl bestStep x

/-- The structured content of the `analysis` dictionaries of
`job_classifier.py`.  The interpolated `reasoning` log strings are
abstracted; the scores, error text, sub-analyses, agreement flag,
chosen branch and retained `(role, confidence)` sub-results are kept. -/
inductive Analysis where
  | ruleBased (all_scores : List (JobRole × RoleScore))
  | aiPowered (reasoning : String) (key_factors : List String)
  | aiError (error : String)
  | combinedAgree (rule_analysis ai_analysis : Analysis)
  | combinedDisagree (chosen_rule : Bool) (rule_result ai_result : JobRole × ℚ)
      (final_analysis : Analysis)
deriving DecidableEq, Repr

/-- `_rule_based_classification`: score every role, take the best one;
below confidence `0.3` force `(OTHER, 0.9)`. -/
def ruleBasedClassification (job : JobPosting) : JobRole × ℚ × Analysis :=
  if (bestRole (roleScores job)).2.score < 3/10 then
    (JobRole.OTHER, 9/10, Analysis.ruleBased (roleScores job))
  else
    ((bestRole (roleScores job)).1, (bestRole (roleScores job)).2.score,
      Analysis.ruleBased (roleScores job))

/-- Outcome of the external model call in `_ai_powered_classification`:
either the call/parse raised (the `except` branch), or it produced a
JSON object whose parsed fields are given.  A response missing the
`role` or `confidence` key is subsumed by `success "other" (1/2) ..`,
matching the `.get` defaults. -/
inductive AIResponse where
  | failure (error : String)
  | success (role : String) (confidence : ℚ) (reasoning : String)
      (key_factors : List String)
deriving DecidableEq, Repr

/-- The `role_mapping.get(result.get("role", "other"), JobRole.OTHER)`
lookup. -/
def roleMapping (s : String) : JobRole :=
  if s = "ai_engineer" then JobRole.AI_ENGINEER
  else if s = "cloud_engineer" then JobRole.CLOUD_ENGINEER
  else if s = "data_scientist" then JobRole.DATA_SCIENTIST
  else if s = "security_analyst" then JobRole.SECURITY_ANALYST
  else JobRole.OTHER

/-- `_ai_powered_classification`, as a function of the model response.
On failure it falls back to `(OTHER, 0.3, error)`; on success the
confidence is taken from the response verbatim — the code performs no
clamping. -/
def aiPoweredClassification (resp : AIResponse) : JobRole × ℚ × Analysis :=
  match resp with
  | AIResponse.failure e => (JobRole.OTHER, 3/10, Analysis.aiError e)
  | AIResponse.success r c reasoning kf =>
      (roleMapping r, c, Analysis.aiPowered reasoning kf)

/-- `_combine_classification_results`: agreement (same role, both
confidences above `0.5`) averages the confidences; otherwise the
verdict with the strictly higher confidence wins, the model verdict
winning ties, and both `(role, confidence)` sub-results are retained. -/
def combineClassificationResults (rule ai : JobRole × ℚ × Analysis) :
    JobRole × ℚ × Analysis :=
  if rule.1 = ai.1 ∧ rule.2.1 > 1/2 ∧ ai.2.1 > 1/2 then
    (rule.1, (rule.2.1 + ai.2.1) / 2, Analysis.combinedAgree rule.2.2 ai.2.2)
  else if rule.2.1 > ai.2.1 then
    (rule.1, rule.2.1,
      Analysis.combinedDisagree true (rule.1, rule.2.1) (ai.1, ai.2.1) rule.2.2)
  else
    (ai.1, ai.2.1,
      Analysis.combinedDisagree false (rule.1, rule.2.1) (ai.1, ai.2.1) ai.2.2)

/-- `classify_job`, as a function of the posting and of the model
response the external call would produce.  The second component
records whether the model stage was invoked: `false` exactly on the
rule-confidence `> 0.8` short-circuit. -/
def classifyJob (job : JobPosting) (resp : AIResponse) :
    (JobRole × ℚ × Analysis) × Bool :=
  if (ruleBasedClassification job).2.1 > 8/10 then
    (ruleBasedClassification job, false)
  else
    (combineClassificationResults (ruleBasedClassification job)
      (aiPoweredClassification resp), true)

/-- The default of the `min_confidence` parameter of
`should_apply_to_job`. -/
def defaultMinConfidence : ℚ := 6/10

/-- `should_apply_to_job`: classify, then reject `OTHER` and verdicts
below the confidence threshold. -/
def shouldApplyToJob (job : JobPosting) (resp : AIResponse)
    (min_confidence : ℚ) : Bool × JobRole × ℚ :=
  if (classifyJob job resp).1.1 = JobRole.OTHER ∨
      (classifyJob job resp).1.2.1 < min_confidence then
    (false, (classifyJob job resp).1.1, (classifyJob job resp).1.2.1)
  else
    (true, (classifyJob job resp).1.1, (classifyJob job resp).1.2.1)

/-! ### Salary extraction and the salary filter (`main.py`) -/

/-- `salary_str.replace(',', '')`. -/
def removeCommas (s : String) : String :=
  ⟨s.data.filter (fun c => c ≠ ',')⟩

/-- Accumulator-passing scan producing the maximal runs of consecutive
digits of a character list, in order — `re.findall(r"\d+", ·)`.  The
second argument holds the digits of the current run, reversed. -/
def digitRunsAux : List Char → List Char → List (List Char)
  | [], cur => if cur.isEmpty then [] else [cur.reverse]
  | c :: cs, cur =>
    if c.isDigit then digitRunsAux cs (c :: cur)
    else if cur.isEmpty then digitRunsAux cs []
    else cur.reverse :: digitRunsAux cs []

/-- The integer runs `re.findall(r"\d+", salary_str.replace(',', ''))`. -/
def digitRuns (s : String) : List (List Char) :=
  digitRunsAux (removeCommas s).data []

/-- Python `int(num)` on a digit run. -/
def digitsToNat (l : List Char) : ℕ :=
  l.foldl (fun n c => 10 * n + (c.toNat - 48)) 0

/-- `extract_salary` from `main.py`: the MAXIMUM of the integer runs
found in the comma-stripped salary string, or `0` when there are none
(`max(int(num) for num in numbers) if numbers else 0`). -/
def extract_salary (salary_str : String) : ℕ :=
  if (digitRuns salary_str).isEmpty then 0
  else ((digitRuns salary_str).map digitsToNat).foldl max 0

/-- The salary clause of `_passes_company_filters`:
`if job.salary and self.extract_salary(job.salary) < config.salary_min`.
Python truthiness of the salary string is emptiness. -/
def salaryFilterRejects (salary : String) (salary_min : ℕ) : Bool :=
  if salary = "" then false
  else decide (extract_salary salary < salary_min)

/-- `config.salary_min` default from `config/settings.py`. -/
def configSalaryMin : ℕ := 70000

/-- Modelled from the claim's words, for comparison with
`extract_salary`: the value of the FIRST integer run of the
comma-stripped salary string (`0` when there are none). -/
def firstIntRun (salary_str : String) : ℕ :=
  match digitRuns salary_str with
  | [] => 0
  | r :: _ => digitsToNat r

/-- Modelled from the claim's words: a salary-filter that rejects when
the FIRST integer run is below the minimum. -/
def specSalaryFilterRejects (salary : String) (salary_min : ℕ) : Bool :=
  if salary = "" then false
  else decide (firstIntRun salary < salary_min)

/-! ### Application store (`tracking/application_tracker.py`) and the
dedup check of the driver loop (`main.py`) -/

/-- The columns of the `applications` row relevant to the dedup
invariant; `job_url` carries a `UNIQUE` constraint. -/
structure ApplicationRecord where
  job_title : String
  company : String
  job_url : String
  status : String
deriving DecidableEq, Repr

/-- `has_applied_to_job`: `SELECT COUNT(*) ... WHERE job_url = ?` is
positive. -/
def hasAppliedToJob (store : List ApplicationRecord) (job_url : String) : Bool :=
  (store.filter (fun r => r.job_url = job_url)).length > 0

/-- `add_application`: insert a row with status `Applied`/`Failed`
according to the `success` flag; the `UNIQUE(job_url)` constraint makes
a duplicate insert raise `sqlite3.IntegrityError`, which is swallowed,
leaving the store unchanged. -/
def addApplication (store : List ApplicationRecord) (job : JobPosting)
    (success : Bool) : List ApplicationRecord :=
  if store.any (fun r => r.job_url = job.url) then store
  else store ++
    [{ job_title := job.title, company := job.company, job_url := job.url,
       status := if success then "Applied" else "Failed" }]

/-- The per-job body of `run_company_applications`, restricted to the
dedup-relevant steps: check `is_already_applied` first; on a fresh URL
attempt the application (outcome given by the `outcome` oracle) and
record it.  Returns the final store and the URLs for which a submission
attempt was made, in order. -/
def runJobs (outcome : JobPosting → Bool) :
    List JobPosting → List ApplicationRecord →
    List ApplicationRecord × List String
  | [], store => (store, [])
  | job :: rest, store =>
    if hasAppliedToJob store job.url then runJobs outcome rest store
    else
      let store2 := addApplication store job (outcome job)
      let r := runJobs outcome rest store2
      (r.1, job.url :: r.2)

/-! ### DOM model for `automation/company_applier.py`

A page element carries the tag, visible text, and the attributes the
element-search strategies consult; an absent attribute is the empty
string.  A page is the list of its elements in document order.  For the
container heuristic of `_find_and_click_apply_button`, which descends
into a container element, pages come with one level of nesting
(`PageNode`): the code never needs more. -/

structure Element where
  tag : String
  text : String
  value : String
  name : String
  id : String
  className : String
  placeholder : String
  accept : String
  inputType : String
  displayed : Bool
  enabled : Bool
deriving DecidableEq, Repr

/-- `get_attribute` on the modelled attributes. -/
def Element.attr (e : Element) : String → String
  | "name" => e.name
  | "id" => e.id
  | "class" => e.className
  | "placeholder" => e.placeholder
  | "accept" => e.accept
  | "type" => e.inputType
  | "value" => e.value
  | _ => ""

/-- The selector forms `company_applier.py` actually uses. `textSearch`
stands for the XPath union
`//button[contains(., t)] | //a[contains(., t)] | //input[@value[contains(., t)]]`
built for the jQuery-style `:contains` selectors and the text search. -/
inductive Selector where
  | attrContains (tag attr sub : String)
  | attrEquals (tag attr v : String)
  | classSel (c : String)
  | idSel (i : String)
  | textSearch (t : String)
  | tagSel (t : String)
deriving DecidableEq, Repr

/-- Whitespace tokenization of a class attribute (the token list CSS
class selectors match against).  The accumulator holds the current
token's characters, reversed. -/
def classTokensAux : List Char → List Char → List String
  | [], cur => if cur.isEmpty then [] else [⟨cur.reverse⟩]
  | c :: cs, cur =>
    if c = ' ' then
      if cur.isEmpty then classTokensAux cs []
      else ⟨cur.reverse⟩ :: classTokensAux cs []
    else classTokensAux cs (c :: cur)

/-- Whether a CSS class attribute contains the class token `c`. -/
def hasClassToken (e : Element) (c : String) : Bool :=
  (classTokensAux e.className.data []).contains c

/-- Selector semantics on a single element. -/
def selectorMatches : Selector → Element → Bool
  | Selector.attrContains tag attr sub, e =>
      e.tag = tag && strContainsSub (e.attr attr) sub
  | Selector.attrEquals tag attr v, e => e.tag = tag && e.attr attr = v
  | Selector.classSel c, e => hasClassToken e c
  | Selector.idSel i, e => e.id = i
  | Selector.textSearch t, e =>
      ((e.tag = "button" || e.tag = "a") && strContainsSub e.text t) ||
      (e.tag = "input" && strContainsSub e.value t)
  | Selector.tagSel t, e => e.tag = t

/-- `driver.find_elements`: all matches in document order. -/
def findElements (page : List Element) (s : Selector) : List Element :=
  page.filter (selectorMatches s)

/-- `driver.find_element`: the first match, `none` standing for the
`NoSuchElementException` branch. -/
def findElement? (page : List Element) (s : Selector) : Option Element :=
  (findElements page s).head?

/-- One level of containment, for the container heuristic. -/
structure PageNode where
  elem : Element
  children : List Element
deriving DecidableEq, Repr

/-- A nested page flattened to document order (a container precedes its
children). -/
def pageElems (page : List PageNode) : List Element :=
  page.flatMap (fun n => n.elem :: n.children)

/-- The `apply_selectors` list of `_find_and_click_apply_button`; the
two `:contains('Apply')` entries both expand to the same three-branch
XPath, hence two identical `textSearch` entries. -/
def applySelectors : List Selector :=
  [ Selector.textSearch "Apply",
    Selector.textSearch "Apply",
    Selector.attrContains "input" "value" "Apply",
    Selector.attrContains "button" "class" "apply",
    Selector.attrContains "a" "class" "apply",
    Selector.classSel "apply-button",
    Selector.classSel "apply-btn",
    Selector.idSel "apply-button",
    Selector.idSel "apply-btn" ]

/-- The `text_searches` list. -/
def textSearches : List String :=
  ["Apply for this job", "Apply now", "Submit application", "Apply"]

/-- The `container_selectors` list. -/
def containerSelectors : List String :=
  ["job-actions", "job-buttons", "application-section", "apply-section"]

/-- First loop of `_find_and_click_apply_button`: per selector, take
`find_element`'s single hit and click it only when displayed and
enabled; otherwise move to the next selector. -/
def tryClickSelectors : List Selector → List Element → Option Element
  | [], _ => none
  | s :: rest, page =>
    match findElement? page s with
    | some e =>
        if e.displayed && e.enabled then some e else tryClickSelectors rest page
    | none => tryClickSelectors rest page

/-- Second loop: per search text, iterate all hits of the XPath union
and click the first displayed-and-enabled one. -/
def tryClickTexts : List String → List Element → Option Element
  | [], _ => none
  | t :: rest, page =>
    match (findElements page (Selector.textSearch t)).find?
        (fun e => e.displayed && e.enabled) with
    | some e => some e
    | none => tryClickTexts rest page

/-- The per-button test of the container heuristic: text or class
mentions "apply", and the button is displayed and enabled. -/
def containerButtonOk (b : Element) : Bool :=
  (strContainsSub (lowerStr b.text) "apply" ||
     strContainsSub (lowerStr b.className) "apply") &&
  b.displayed && b.enabled

/-- Third loop: per container class, find the first container, collect
its `button` children then its `a` children, and click the first that
passes `containerButtonOk`. -/
def tryClickContainers : List String → List PageNode → Option Element
  | [], _ => none
  | c :: rest, page =>
    match (page.filter (fun n => hasClassToken n.elem c)).head? with
    | none => tryClickContainers rest page
    | some container =>
      match (container.children.filter (fun b => b.tag = "button") ++
          container.children.filter (fun b => b.tag = "a")).find? containerButtonOk with
      | some b => some b
      | none => tryClickContainers rest page

/-- `_find_and_click_apply_button`: the three strategies in order; the
result is the clicked element, `none` meaning the function returns
`False`. -/
def findAndClickApplyButton (page : List PageNode) : Option Element :=
  match tryClickSelectors applySelectors (pageElems page) with
  | some e => some e
  | none =>
    match tryClickTexts textSearches (pageElems page) with
    | some e => some e
    | none => tryClickContainers containerSelectors page

/-- `_generate_field_selectors`. -/
def generateFieldSelectors (field_type : String) : List Selector :=
  let base :=
    [ Selector.attrContains "input" "name" field_type,
      Selector.attrContains "input" "id" field_type,
      Selector.attrContains "input" "placeholder" field_type,
      Selector.attrContains "input" "class" field_type ]
  base ++
    (if field_type = "first_name" then
      [ Selector.attrContains "input" "name" "first",
        Selector.attrContains "input" "name" "fname",
        Selector.attrContains "input" "placeholder" "First name",
        Selector.attrContains "input" "placeholder" "First Name" ]
    else if field_type = "last_name" then
      [ Selector.attrContains "input" "name" "last",
        Selector.attrContains "input" "name" "lname",
        Selector.attrContains "input" "placeholder" "Last name",
        Selector.attrContains "input" "placeholder" "Last Name" ]
    else if field_type = "full_name" then
      [ Selector.attrContains "input" "name" "name",
        Selector.attrContains "input" "placeholder" "Full name",
        Selector.attrContains "input" "placeholder" "Your name" ]
    else if field_type = "email" then
      [ Selector.attrEquals "input" "type" "email",
        Selector.attrEquals "input" "name" "email",
        Selector.attrContains "input" "placeholder" "email" ]
    else if field_type = "phone" then
      [ Selector.attrEquals "input" "type" "tel",
        Selector.attrContains "input" "name" "phone",
        Selector.attrContains "input" "placeholder" "phone" ]
    else [])

/-- Inner search of `_fill_field_by_type`: per selector, fill the first
displayed-and-enabled hit.  The post-fill read-back
`element.get_attribute('value') == value` always succeeds here, since
in this model `send_keys` after `clear` sets the value. -/
def fillFieldAux : List Selector → List Element → Option Element
  | [], _ => none
  | s :: rest, page =>
    match (findElements page s).find? (fun e => e.displayed && e.enabled) with
    | some e => some e
    | none => fillFieldAux rest page

/-- `_fill_field_by_type`: the element filled with `value`, if any. -/
def fillFieldByType (page : List Element) (field_type value : String) :
    Option (Element × String) :=
  (fillFieldAux (generateFieldSelectors field_type) page).map (fun e => (e, value))

/-- What a file input is used for in `_handle_file_uploads`. -/
inductive UploadKind where
  | resume
  | coverLetter
  | generic
deriving DecidableEq, Repr

/-- The classification of one file input by its
`accept + " " + name + " " + id` context. -/
def classifyFileInput (fi : Element) : UploadKind :=
  let context := lowerStr (fi.accept ++ " " ++ fi.name ++ " " ++ fi.id)
  if ["resume", "cv"].any (fun w => strContainsSub context w) then
    UploadKind.resume
  else if ["cover", "letter"].any (fun w => strContainsSub context w) then
    UploadKind.coverLetter
  else UploadKind.generic

/-- `_handle_file_uploads`: iterate every `input[type='file']`, skip the
non-displayed ones (the only state check the code makes), and send a
file to each remaining one according to its context. -/
def handleFileUploads (page : List Element) : List (Element × UploadKind) :=
  let file_inputs := findElements page (Selector.attrEquals "input" "type" "file")
  (file_inputs.filter (fun fi => fi.displayed)).map
    (fun fi => (fi, classifyFileInput fi))

/-- Python's `or` on strings: the left operand unless it is empty
(falsy). -/
def pyOr (a b : String) : String :=
  if a ≠ "" then a else b

/-- The context expression of `_add_cover_letter_text`, translated with
Python's operator precedence (`+` binds tighter than `or`):
`(p or "" + n or "" + i or "").lower()` parses as
`(p or ("" + n) or ("" + i) or "").lower()`. -/
def textareaContext (e : Element) : String :=
  lowerStr (pyOr (pyOr (pyOr e.placeholder ("" ++ e.name)) ("" ++ e.id)) "")

/-- The trigger-word list of `_add_cover_letter_text`. -/
def coverLetterTriggers : List String :=
  ["cover", "letter", "message", "additional", "why"]

/-- `_add_cover_letter_text`: iterate the page's textareas in order,
skip the non-displayed or non-enabled ones, and send the cover letter
to the first one whose context contains a trigger word (the loop
`break`s after it; `clear`/`send_keys` succeed in this model).  The
result is the receiving textarea paired with the inserted text. -/
def addCoverLetterText (page : List Element) (cover_letter : String) :
    Option (Element × String) :=
  ((findElements page (Selector.tagSel "textarea")).find? (fun ta =>
    ta.displayed && ta.enabled &&
      coverLetterTriggers.any (fun w => strContainsSub (textareaContext ta) w))).map
    (fun ta => (ta, cover_letter))

/-! ### Concrete fixtures used by witnesses and counterexamples -/

/-- A posting whose text contains no keyword of any profile (note the
single-letter secondary keyword `"r"` of the data-scientist profile:
the text must avoid even that). -/
def chefJob : JobPosting :=
  { title := "Chef", company := "Bistro", location := "NYC",
    description := "", requirements := "",
    url := "https://bistro.example/jobs/1", salary := "",
    job_type := "", posted_date := "", department := "" }

/-- A posting whose rule-stage best score lands strictly between `0.3`
and `0.8` (data-scientist raw score `13` of a possible `35`), so the
model stage is reached. -/
def dsJob : JobPosting :=
  { title := "Quant", company := "Acme", location := "NYC",
    description := "data scientist data science analytics statistical analysis predictive modeling data mining",
    requirements := "",
    url := "https://acme.example/jobs/2", salary := "",
    job_type := "", posted_date := "", department := "" }

/-- Helper building an `Element` from positional fields:
tag, text, value, name, id, class, placeholder, accept, type,
displayed, enabled. -/
def mkElem (tag text value nm idv cls ph acc ty : String)
    (displayed enabled : Bool) : Element :=
  { tag := tag, text := text, value := value, name := nm, id := idv,
    className := cls, placeholder := ph, accept := acc, inputType := ty,
    displayed := displayed, enabled := enabled }

/-- A displayed and enabled apply button. -/
def applyBtn : Element :=
  mkElem "button" "Apply now" "" "" "" "" "" "" "" true true

/-- A file input that is displayed but NOT enabled, with a
resume-suggesting `name`. -/
def disabledResumeInput : Element :=
  mkElem "input" "" "" "resume_upload" "" "" "" "" "file" true false

/-- A displayed, enabled anchor mentioning "apply" — a qualifying
candidate of the container heuristic. -/
def applyAnchor : Element :=
  mkElem "a" "Apply here" "" "" "" "" "" "" "" true true

/-- A displayed, enabled button mentioning "apply" — also qualifying
for the container heuristic. -/
def containerButton : Element :=
  mkElem "button" "Apply now" "" "" "" "" "" "" "" true true

/-- A container element carrying the `job-actions` class. -/
def jobActionsContainer : Element :=
  mkElem "div" "" "" "" "" "job-actions" "" "" "" true true

/-- A displayed, enabled textarea whose placeholder is non-empty and
free of trigger words, while its `name` says `cover_letter`. -/
def decoyTextarea : Element :=
  mkElem "textarea" "" "" "cover_letter" "" "" "Tell us about yourself" "" "" true true

/-- A displayed, enabled textarea whose placeholder mentions a cover
letter. -/
def coverTextarea : Element :=
  mkElem "textarea" "" "" "" "" "" "Paste your cover letter" "" "" true true

/-- An existing application record for the C9 witness. -/
def rec1 : ApplicationRecord :=
  { job_title := "Chef", company := "Bistro",
    job_url := "https://bistro.example/jobs/1", status := "Applied" }

/-! ### Helper lemmas: keyword scoring and the best role -/

lemma rawScore_le_maxPossible (text : String) (p : RolePattern) :
    rawScore text p ≤ (maxPossibleScore p : ℤ) := by
  have h1 : (matchedPrimary text p).length ≤ p.primary_keywords.length :=
    List.length_filter_le _ _
  have h2 : (matchedSecondary text p).length ≤ p.secondary_keywords.length :=
    List.length_filter_le _ _
  have h1q : ((matchedPrimary text p).length : ℤ) ≤ p.primary_keywords.length := by
    exact_mod_cast h1
  have h2q : ((matchedSecondary text p).length : ℤ) ≤ p.secondary_keywords.length := by
    exact_mod_cast h2
  have h3 : (0 : ℤ) ≤ 3 * (matchedAnti text p).length := by positivity
  unfold rawScore maxPossibleScore
  push_cast
  linarith

lemma normalizedScore_nonneg (text : String) (p : RolePattern) :
    0 ≤ normalizedScore text p := by
  unfold normalizedScore
  split
  · exact le_max_left 0 _
  · exact le_refl 0

lemma normalizedScore_le_one (text : String) (p : RolePattern) :
    normalizedScore text p ≤ 1 := by
  unfold normalizedScore
  split
  · rename_i h
    refine max_le (by norm_num) ?_
    have hm : (0 : ℚ) < (maxPossibleScore p : ℚ) := by exact_mod_cast h
    rw [div_le_one hm]
    exact_mod_cast rawScore_le_maxPossible text p
  · norm_num

lemma bestStep_score_le (b x : JobRole × RoleScore) :
    b.2.score ≤ (bestStep b x).2.score := by
  unfold bestStep
  split
  · rename_i h
    exact le_of_lt h
  · exact le_refl _

lemma foldl_bestStep_mem (l : List (JobRole × RoleScore)) (b : JobRole × RoleScore) :
    l.foldl bestStep b = b ∨ l.foldl bestStep b ∈ l := by
  induction l generalizing b with
  | nil => exact Or.inl rfl
  | cons x xs ih =>
    rw [List.foldl_cons]
    rcases ih (bestStep b x) with h | h
    · rw [h]
      unfold bestStep
      split
      · exact Or.inr (List.mem_cons_self _ _)
      · exact Or.inl rfl
    · exact Or.inr (List.mem_cons_of_mem _ h)

lemma le_foldl_bestStep (l : List (JobRole × RoleScore)) (b : JobRole × RoleScore) :
    b.2.score ≤ (l.foldl bestStep b).2.score := by
  induction l generalizing b with
  | nil => exact le_refl _
  | cons x xs ih =>
    rw [List.foldl_cons]
    exact le_trans (bestStep_score_le b x) (ih (bestStep b x))

lemma mem_score_le_foldl_bestStep (l : List (JobRole × RoleScore))
    (b x : JobRole × RoleScore) (hx : x ∈ l) :
    x.2.score ≤ (l.foldl bestStep b).2.score := by
  induction l generalizing b with
  | nil => cases hx
  | cons y ys ih =>
    rw [List.foldl_cons]
    rcases List.mem_cons.1 hx with rfl | h
    · refine le_trans ?_ (le_foldl_bestStep ys (bestStep b x))
      unfold bestStep
      split
      · exact le_refl _
      · rename_i h
        exact le_of_not_lt h
    · exact ih (bestStep b y) h

lemma bestRole_mem (l : List (JobRole × RoleScore)) (h : l ≠ []) :
    bestRole l ∈ l := by
  match l with
  | [] => exact absurd rfl h
  | x :: xs =>
    rcases foldl_bestStep_mem xs x with h2 | h2
    · rw [bestRole, h2]
      exact List.mem_cons_self _ _
    · exact List.mem_cons_of_mem _ h2

lemma score_le_bestRole (l : List (JobRole × RoleScore))
    (x : JobRole × RoleScore) (hx : x ∈ l) :
    x.2.score ≤ (bestRole l).2.score := by
  match l with
  | [] => cases hx
  | y :: ys =>
    rcases List.mem_cons.1 hx with rfl | h
    · exact le_foldl_bestStep ys x
    · exact mem_score_le_foldl_bestStep ys y x h

lemma roleScores_ne_nil (job : JobPosting) : roleScores job ≠ [] := by
  unfold roleScores rolePatterns
  simp

lemma roleScores_mem_structure (job : JobPosting) (x : JobRole × RoleScore)
    (hx : x ∈ roleScores job) :
    ∃ rp ∈ rolePatterns, x.2.score = normalizedScore (jobText job) rp.2 := by
  unfold roleScores at hx
  rcases List.mem_map.1 hx with ⟨rp, hrp, rfl⟩
  exact ⟨rp, hrp, rfl⟩

lemma ruleConf_nonneg (job : JobPosting) :
    0 ≤ (ruleBasedClassification job).2.1 := by
  unfold ruleBasedClassification
  split
  · norm_num
  · rcases roleScores_mem_structure job _ (bestRole_mem _ (roleScores_ne_nil job)) with
      ⟨rp, _, hrp⟩
    simpa [hrp] using normalizedScore_nonneg (jobText job) rp.2

lemma ruleConf_le_one (job : JobPosting) :
    (ruleBasedClassification job).2.1 ≤ 1 := by
  unfold ruleBasedClassification
  split
  · norm_num
  · rcases roleScores_mem_structure job _ (bestRole_mem _ (roleScores_ne_nil job)) with
      ⟨rp, _, hrp⟩
    simpa [hrp] using normalizedScore_le_one (jobText job) rp.2

/-! ### Evaluation lemmas for the concrete postings

The string scanning is evaluated by `decide` (it reduces in the
kernel); the rational arithmetic is closed by `norm_num`, since the
`Rat` operations are irreducible. -/

lemma normScore_eval (t : String) (p : RolePattern) (r : ℤ) (m : ℕ)
    (hr : rawScore t p = r) (hm : maxPossibleScore p = m) (h0 : 0 < m) :
    normalizedScore t p = max 0 ((r : ℚ) / (m : ℚ)) := by
  unfold normalizedScore
  rw [hr, hm, if_pos h0]

lemma chef_score_ai : normalizedScore (jobText chefJob) aiEngineerPattern = 0 := by
  rw [normScore_eval _ _ 0 44 (by decide) (by decide) (by norm_num)]
  norm_num

lemma chef_score_cloud : normalizedScore (jobText chefJob) cloudEngineerPattern = 0 := by
  rw [normScore_eval _ _ 0 42 (by decide) (by decide) (by norm_num)]
  norm_num

lemma chef_score_ds : normalizedScore (jobText chefJob) dataScientistPattern = 0 := by
  rw [normScore_eval _ _ 0 35 (by decide) (by decide) (by norm_num)]
  norm_num

lemma chef_score_sec : normalizedScore (jobText chefJob) securityAnalystPattern = 0 := by
  rw [normScore_eval _ _ 0 49 (by decide) (by decide) (by norm_num)]
  norm_num

lemma ds_score_ai : normalizedScore (jobText dsJob) aiEngineerPattern = 0 := by
  rw [normScore_eval _ _ 0 44 (by decide) (by decide) (by norm_num)]
  norm_num

lemma ds_score_cloud : normalizedScore (jobText dsJob) cloudEngineerPattern = 0 := by
  rw [normScore_eval _ _ 0 42 (by decide) (by decide) (by norm_num)]
  norm_num

lemma ds_score_ds : normalizedScore (jobText dsJob) dataScientistPattern = 13/35 := by
  rw [normScore_eval _ _ 13 35 (by decide) (by decide) (by norm_num)]
  norm_num

lemma ds_score_sec : normalizedScore (jobText dsJob) securityAnalystPattern = 0 := by
  rw [normScore_eval _ _ 0 49 (by decide) (by decide) (by norm_num)]
  norm_num

lemma foldl_bestStep_of_none_gt (l : List (JobRole × RoleScore))
    (b : JobRole × RoleScore) (h : ∀ x ∈ l, ¬ x.2.score > b.2.score) :
    l.foldl bestStep b = b := by
  induction l with
  | nil => rfl
  | cons x xs ih =>
    rw [List.foldl_cons]
    have hb : bestStep b x = b := by
      unfold bestStep
      rw [if_neg (h x (List.mem_cons_self _ _))]
    rw [hb]
    exact ih (fun y hy => h y (List.mem_cons_of_mem _ hy))

lemma bestRole_chef_score : (bestRole (roleScores chefJob)).2.score = 0 := by
  unfold roleScores rolePatterns
  simp only [List.map_cons, List.map_nil, bestRole]
  rw [foldl_bestStep_of_none_gt]
  · exact chef_score_ai
  · intro x hx
    fin_cases hx <;>
      simp only [chef_score_ai, chef_score_cloud, chef_score_ds, chef_score_sec] <;>
      exact lt_irrefl 0

lemma rule_chef : ruleBasedClassification chefJob =
    (JobRole.OTHER, 9/10, Analysis.ruleBased (roleScores chefJob)) := by
  unfold ruleBasedClassification
  rw [if_pos]
  rw [bestRole_chef_score]
  norm_num

lemma bestRole_ds : bestRole (roleScores dsJob) =
    (JobRole.DATA_SCIENTIST,
      { score := normalizedScore (jobText dsJob) dataScientistPattern,
        matched_keywords := matchedKeywords (jobText dsJob) dataScientistPattern,
        raw_score := rawScore (jobText dsJob) dataScientistPattern }) := by
  unfold roleScores rolePatterns
  simp only [List.map_cons, List.map_nil, bestRole, List.foldl_cons, List.foldl_nil,
    bestStep]
  rw [ds_score_ai, ds_score_cloud, ds_score_ds, ds_score_sec]
  norm_num

lemma rule_ds : ruleBasedClassification dsJob =
    (JobRole.DATA_SCIENTIST, 13/35, Analysis.ruleBased (roleScores dsJob)) := by
  unfold ruleBasedClassification
  rw [bestRole_ds]
  simp only [ds_score_ds]
  rw [if_neg]
  norm_num

lemma classify_chef (resp : AIResponse) :
    classifyJob chefJob resp = (ruleBasedClassification chefJob, false) := by
  unfold classifyJob
  rw [if_pos]
  rw [rule_chef]
  norm_num

lemma classify_ds_success (c : ℚ) (re : String) (kf : List String)
    (hc : 13/35 < c) :
    (classifyJob dsJob (AIResponse.success "ai_engineer" c re kf)).1 =
      (JobRole.AI_ENGINEER, c,
        Analysis.combinedDisagree false (JobRole.DATA_SCIENTIST, 13/35)
          (JobRole.AI_ENGINEER, c)
          (Analysis.aiPowered re kf)) := by
  unfold classifyJob
  rw [rule_ds]
  rw [if_neg (by norm_num)]
  unfold combineClassificationResults aiPoweredClassification roleMapping
  simp only [if_pos rfl]
  rw [if_neg (by simp), if_neg (not_lt.2 (le_of_lt hc))]
  simp

lemma shouldApply_chef (resp : AIResponse) :
    shouldApplyToJob chefJob resp defaultMinConfidence =
      (false, JobRole.OTHER, 9/10) := by
  unfold shouldApplyToJob
  rw [classify_chef resp, rule_chef]
  rw [if_pos (Or.inl rfl)]

lemma shouldApply_ds_055 :
    shouldApplyToJob dsJob (AIResponse.success "ai_engineer" (11/20) "" [])
      defaultMinConfidence = (false, JobRole.AI_ENGINEER, 11/20) := by
  unfold shouldApplyToJob
  rw [classify_ds_success (11/20) "" [] (by norm_num)]
  rw [if_pos (Or.inr (by norm_num [defaultMinConfidence]))]

lemma shouldApply_ds_061 :
    shouldApplyToJob dsJob (AIResponse.success "ai_engineer" (61/100) "" [])
      defaultMinConfidence = (true, JobRole.AI_ENGINEER, 61/100) := by
  unfold shouldApplyToJob
  rw [classify_ds_success (61/100) "" [] (by norm_num)]
  rw [if_neg]
  push_neg
  exact ⟨by simp, by norm_num [defaultMinConfidence]⟩

/-! ### Helper lemmas: element search -/

lemma find?_split {α : Type} (p : α → Bool) (l : List α) (e : α)
    (h : l.find? p = some e) :
    ∃ l1 l2, l = l1 ++ e :: l2 ∧ ∀ x ∈ l1, p x = false := by
  induction l with
  | nil => cases h
  | cons x xs ih =>
    by_cases hx : p x
    · rw [List.find?_cons_of_pos _ hx] at h
      cases h
      exact ⟨[], xs, rfl, by intro y hy; cases hy⟩
    · rw [List.find?_cons_of_neg _ (by simpa using hx)] at h
      rcases ih h with ⟨l1, l2, rfl, hl1⟩
      refine ⟨x :: l1, l2, rfl, ?_⟩
      intro y hy
      rcases List.mem_cons.1 hy with rfl | hy2
      · simpa using hx
      · exact hl1 y hy2

lemma bool_and_split {a b : Bool} (h : (a && b) = true) :
    a = true ∧ b = true := by
  simpa using h

lemma tryClickSelectors_ok (sels : List Selector) (page : List Element)
    (e : Element) (h : tryClickSelectors sels page = some e) :
    e.displayed = true ∧ e.enabled = true := by
  induction sels with
  | nil => cases h
  | cons s rest ih =>
    unfold tryClickSelectors at h
    split at h
    · split at h
      · cases h
        rename_i hd
        exact bool_and_split hd
      · exact ih h
    · exact ih h

lemma tryClickSelectors_first (sels : List Selector) (page : List Element)
    (e : Element) (h : tryClickSelectors sels page = some e) :
    ∃ s ∈ sels, findElement? page s = some e := by
  induction sels with
  | nil => cases h
  | cons s rest ih =>
    unfold tryClickSelectors at h
    split at h
    · split at h
      · cases h
        rename_i heq _
        exact ⟨s, List.mem_cons_self _ _, heq⟩
      · rcases ih h with ⟨s2, hs2, he2⟩
        exact ⟨s2, List.mem_cons_of_mem _ hs2, he2⟩
    · rcases ih h with ⟨s2, hs2, he2⟩
      exact ⟨s2, List.mem_cons_of_mem _ hs2, he2⟩

lemma tryClickTexts_first (ts : List String) (page : List Element)
    (e : Element) (h : tryClickTexts ts page = some e) :
    ∃ t ∈ ts, ∃ l1 l2,
      findElements page (Selector.textSearch t) = l1 ++ e :: l2 ∧
      ∀ x ∈ l1, (x.displayed && x.enabled) = false := by
  induction ts with
  | nil => cases h
  | cons t rest ih =>
    unfold tryClickTexts at h
    split at h
    · cases h
      rename_i hf
      rcases find?_split _ _ _ hf with ⟨l1, l2, hsplit, hl1⟩
      exact ⟨t, List.mem_cons_self _ _, l1, l2, hsplit, hl1⟩
    · rcases ih h with ⟨t2, ht2, rest2⟩
      exact ⟨t2, List.mem_cons_of_mem _ ht2, rest2⟩

lemma tryClickTexts_ok (ts : List String) (page : List Element)
    (e : Element) (h : tryClickTexts ts page = some e) :
    e.displayed = true ∧ e.enabled = true := by
  induction ts with
  | nil => cases h
  | cons t rest ih =>
    unfold tryClickTexts at h
    split at h
    · cases h
      rename_i x hf
      have hp := List.find?_some hf
      exact bool_and_split hp
    · exact ih h

lemma containerButtonOk_state (b : Element) (h : containerButtonOk b = true) :
    b.displayed = true ∧ b.enabled = true := by
  unfold containerButtonOk at h
  have h1 := bool_and_split h
  have h2 := bool_and_split h1.1
  exact ⟨h2.2, h1.2⟩

lemma tryClickContainers_ok (cs : List String) (page : List PageNode)
    (e : Element) (h : tryClickContainers cs page = some e) :
    e.displayed = true ∧ e.enabled = true := by
  induction cs with
  | nil => cases h
  | cons c rest ih =>
    unfold tryClickContainers at h
    split at h
    · exact ih h
    · split at h
      · cases h
        rename_i hf
        exact containerButtonOk_state _ (List.find?_some hf)
      · exact ih h

lemma findAndClickApplyButton_ok (page : List PageNode) (e : Element)
    (h : findAndClickApplyButton page = some e) :
    e.displayed = true ∧ e.enabled = true := by
  unfold findAndClickApplyButton at h
  split at h
  · cases h
    rename_i h1
    exact tryClickSelectors_ok _ _ _ h1
  · split at h
    · cases h
      rename_i h2
      exact tryClickTexts_ok _ _ _ h2
    · exact tryClickContainers_ok _ _ _ h

lemma fillFieldAux_ok (sels : List Selector) (page : List Element)
    (e : Element) (h : fillFieldAux sels page = some e) :
    e.displayed = true ∧ e.enabled = true := by
  induction sels with
  | nil => cases h
  | cons s rest ih =>
    unfold fillFieldAux at h
    split at h
    · cases h
      rename_i hf
      have hp := List.find?_some hf
      exact bool_and_split hp
    · exact ih h

lemma fillFieldAux_first (sels : List Selector) (page : List Element)
    (e : Element) (h : fillFieldAux sels page = some e) :
    ∃ s ∈ sels, ∃ l1 l2, findElements page s = l1 ++ e :: l2 ∧
      ∀ x ∈ l1, (x.displayed && x.enabled) = false := by
  induction sels with
  | nil => cases h
  | cons s rest ih =>
    unfold fillFieldAux at h
    split at h
    · cases h
      rename_i hf
      rcases find?_split _ _ _ hf with ⟨l1, l2, hsplit, hl1⟩
      exact ⟨s, List.mem_cons_self _ _, l1, l2, hsplit, hl1⟩
    · rcases ih h with ⟨s2, hs2, rest2⟩
      exact ⟨s2, List.mem_cons_of_mem _ hs2, rest2⟩

/-! ### Helper lemmas: digit runs and the maximum -/

lemma digitRunsAux_nil_of_no_digit (l : List Char)
    (h : ∀ c ∈ l, c.isDigit = false) : digitRunsAux l [] = [] := by
  induction l with
  | nil => rfl
  | cons c cs ih =>
    unfold digitRunsAux
    rw [if_neg (by simp [h c (List.mem_cons_self _ _)])]
    simpa using ih (fun x hx => h x (List.mem_cons_of_mem _ hx))

lemma foldl_max_init_le (l : List ℕ) (b : ℕ) : b ≤ l.foldl max b := by
  induction l generalizing b with
  | nil => exact le_refl _
  | cons x xs ih =>
    rw [List.foldl_cons]
    exact le_trans (le_max_left b x) (ih (max b x))

lemma mem_le_foldl_max (l : List ℕ) (b x : ℕ) (hx : x ∈ l) :
    x ≤ l.foldl max b := by
  induction l generalizing b with
  | nil => cases hx
  | cons y ys ih =>
    rw [List.foldl_cons]
    rcases List.mem_cons.1 hx with rfl | h
    · exact le_trans (le_max_right b x) (foldl_max_init_le ys (max b x))
    · exact ih (max b y) h

lemma foldl_max_mem (l : List ℕ) (b : ℕ) :
    l.foldl max b = b ∨ l.foldl max b ∈ l := by
  induction l generalizing b with
  | nil => exact Or.inl rfl
  | cons x xs ih =>
    rw [List.foldl_cons]
    rcases ih (max b x) with h | h
    · rw [h]
      rcases max_choice b x with h2 | h2
      · exact Or.inl h2
      · exact Or.inr (by rw [h2]; exact List.mem_cons_self _ _)
    · exact Or.inr (List.mem_cons_of_mem _ h)

/-! ### Helper lemmas: the application store -/

lemma hasApplied_iff (store : List ApplicationRecord) (u : String) :
    hasAppliedToJob store u = true ↔ ∃ r ∈ store, r.job_url = u := by
  unfold hasAppliedToJob
  rw [decide_eq_true_iff]
  rw [gt_iff_lt, List.length_pos]
  constructor
  · intro h
    rcases List.exists_mem_of_ne_nil _ h with ⟨r, hr⟩
    have h2 := List.mem_filter.1 hr
    exact ⟨r, h2.1, by simpa using h2.2⟩
  · intro ⟨r, hr, hu⟩
    exact List.ne_nil_of_mem (List.mem_filter.2 ⟨hr, by simpa using hu⟩)

lemma addApplication_of_dup (store : List ApplicationRecord) (job : JobPosting)
    (s : Bool) (h : store.any (fun r => r.job_url = job.url) = true) :
    addApplication store job s = store := by
  unfold addApplication
  rw [if_pos h]

lemma addApplication_sub (store : List ApplicationRecord) (job : JobPosting)
    (s : Bool) (r : ApplicationRecord) (hr : r ∈ store) :
    r ∈ addApplication store job s := by
  unfold addApplication
  split
  · exact hr
  · exact List.mem_append_left _ hr

lemma hasApplied_addApplication_self (store : List ApplicationRecord)
    (job : JobPosting) (s : Bool) :
    hasAppliedToJob (addApplication store job s) job.url = true := by
  rw [hasApplied_iff]
  unfold addApplication
  by_cases h : store.any (fun r => r.job_url = job.url) = true
  · rw [if_pos h]
    rcases List.any_eq_true.1 h with ⟨r, hr, hu⟩
    exact ⟨r, hr, by simpa using hu⟩
  · rw [if_neg h]
    exact ⟨_, List.mem_append_right _ (List.mem_cons_self _ _), rfl⟩

lemma hasApplied_mono (store : List ApplicationRecord) (job : JobPosting)
    (s : Bool) (u : String) (h : hasAppliedToJob store u = true) :
    hasAppliedToJob (addApplication store job s) u = true := by
  rw [hasApplied_iff] at h ⊢
  rcases h with ⟨r, hr, hu⟩
  exact ⟨r, addApplication_sub store job s r hr, hu⟩

lemma nodup_addApplication (store : List ApplicationRecord) (job : JobPosting)
    (s : Bool) (h : (store.map (fun r => r.job_url)).Nodup) :
    ((addApplication store job s).map (fun r => r.job_url)).Nodup := by
  unfold addApplication
  by_cases ha : store.any (fun r => r.job_url = job.url) = true
  · rw [if_pos ha]
    exact h
  · rw [if_neg ha]
    rw [List.map_append]
    rw [List.nodup_append]
    refine ⟨h, List.nodup_singleton _, ?_⟩
    intro u hu hu2
    simp only [List.map_cons, List.map_nil, List.mem_singleton] at hu2
    rcases List.mem_map.1 hu with ⟨r, hr, hru⟩
    have : ∀ r ∈ store, ¬ (r.job_url = job.url) := by
      intro r2 hr2 he
      exact ha (List.any_eq_true.2 ⟨r2, hr2, by simpa using he⟩)
    exact this r hr (by rw [hru, hu2])

lemma not_mem_attempted (outcome : JobPosting → Bool) (jobs : List JobPosting)
    (store : List ApplicationRecord) (u : String)
    (h : hasAppliedToJob store u = true) :
    u ∉ (runJobs outcome jobs store).2 := by
  induction jobs generalizing store with
  | nil => simp [runJobs]
  | cons job rest ih =>
    unfold runJobs
    by_cases hg : hasAppliedToJob store job.url = true
    · rw [if_pos hg]
      exact ih store h
    · rw [if_neg hg]
      intro hmem
      rcases List.mem_cons.1 hmem with rfl | hmem2
      · exact hg h
      · exact ih (addApplication store job (outcome job))
          (hasApplied_mono store job (outcome job) u h) hmem2

lemma attempted_nodup (outcome : JobPosting → Bool) (jobs : List JobPosting)
    (store : List ApplicationRecord) :
    (runJobs outcome jobs store).2.Nodup := by
  induction jobs generalizing store with
  | nil => simp [runJobs]
  | cons job rest ih =>
    unfold runJobs
    by_cases hg : hasAppliedToJob store job.url = true
    · rw [if_pos hg]
      exact ih store
    · rw [if_neg hg]
      refine List.Nodup.cons ?_ (ih _)
      intro hmem
      exact not_mem_attempted outcome rest _ job.url
        (hasApplied_addApplication_self store job (outcome job)) hmem

lemma normalizedScore_eq_zero_of_no_match (t : String) (p : RolePattern)
    (hp : matchedPrimary t p = []) (hs : matchedSecondary t p = []) :
    normalizedScore t p = 0 := by
  unfold normalizedScore
  split
  · rename_i h
    have hraw : rawScore t p ≤ 0 := by
      unfold rawScore
      rw [hp, hs]
      simp
    have : (rawScore t p : ℚ) / (maxPossibleScore p : ℚ) ≤ 0 := by
      apply div_nonpos_of_nonpos_of_nonneg
      · exact_mod_cast hraw
      · positivity
    exact max_eq_left this
  · rfl

/-! ### Claim theorems -/

/-- C1: the arbitration of `_combine_classification_results` — equal
roles with both confidences above `0.5` yield the agreed role with the
arithmetic mean of the confidences (agreement recorded); in every other
case the verdict with the higher confidence wins (the model verdict on
ties), agreement is recorded as false and both `(role, confidence)`
sub-results are retained; in particular
rule=(AI_ENGINEER, 0.7), model=(AI_ENGINEER, 0.9) gives
(AI_ENGINEER, 0.8, agreement). -/
theorem arbitration_mean_or_higher_confidence :
    (∀ (rr : JobRole) (rc : ℚ) (ra : Analysis) (ar : JobRole) (ac : ℚ)
      (aa : Analysis), rr = ar → rc > 1/2 → ac > 1/2 →
      combineClassificationResults (rr, rc, ra) (ar, ac, aa) =
        (rr, (rc + ac) / 2, Analysis.combinedAgree ra aa)) ∧
    (∀ (rr : JobRole) (rc : ℚ) (ra : Analysis) (ar : JobRole) (ac : ℚ)
      (aa : Analysis), ¬ (rr = ar ∧ rc > 1/2 ∧ ac > 1/2) →
      combineClassificationResults (rr, rc, ra) (ar, ac, aa) =
        (if rc > ac then rr else ar, max rc ac,
          if rc > ac then
            Analysis.combinedDisagree true (rr, rc) (ar, ac) ra
          else
            Analysis.combinedDisagree false (rr, rc) (ar, ac) aa)) ∧
    (∀ a1 a2 : Analysis, combineClassificationResults
        (JobRole.AI_ENGINEER, 7/10, a1) (JobRole.AI_ENGINEER, 9/10, a2) =
      (JobRole.AI_ENGINEER, 8/10, Analysis.combinedAgree a1 a2)) := by
  refine ⟨?_, ?_, ?_⟩
  · intro rr rc ra ar ac aa h1 h2 h3
    unfold combineClassificationResults
    rw [if_pos ⟨h1, h2, h3⟩]
  · intro rr rc ra ar ac aa hneg
    unfold combineClassificationResults
    rw [if_neg hneg]
    by_cases hgt : rc > ac
    · rw [if_pos hgt, if_pos hgt, if_pos hgt, max_eq_left (le_of_lt hgt)]
    · rw [if_neg hgt, if_neg hgt, if_neg hgt, max_eq_right (not_lt.1 hgt)]
  · intro a1 a2
    unfold combineClassificationResults
    rw [if_pos ⟨rfl, by norm_num, by norm_num⟩]
    have : ((7:ℚ)/10 + 9/10) / 2 = 8/10 := by norm_num
    rw [this]

/-- Witness for C1: a concrete disagreement — rule=(CLOUD_ENGINEER,
0.75) beats model=(OTHER, 0.4), agreement=false, both sub-results
kept. -/
theorem arbitration_mean_or_higher_confidence_witness :
    combineClassificationResults
      (JobRole.CLOUD_ENGINEER, 3/4, Analysis.aiError "x")
      (JobRole.OTHER, 2/5, Analysis.aiError "y") =
    (JobRole.CLOUD_ENGINEER, 3/4,
      Analysis.combinedDisagree true (JobRole.CLOUD_ENGINEER, 3/4)
        (JobRole.OTHER, 2/5) (Analysis.aiError "x")) := by
  rw [arbitration_mean_or_higher_confidence.2.1 _ _ _ _ _ _ (by simp)]
  norm_num

/-- C2: the rule stage scores the lowercased
title+description+requirements against every profile and returns the
best role with its normalized score as confidence, except that a best
score below `0.3` yields `(OTHER, 0.9)`; a posting matching no
primary or secondary keyword of any profile yields `(OTHER, 0.9)`. -/
theorem rule_stage_best_role_or_other :
    (∀ job, ¬ (bestRole (roleScores job)).2.score < 3/10 →
      ruleBasedClassification job =
        ((bestRole (roleScores job)).1, (bestRole (roleScores job)).2.score,
          Analysis.ruleBased (roleScores job)) ∧
      bestRole (roleScores job) ∈ roleScores job ∧
      (∀ x ∈ roleScores job, x.2.score ≤ (bestRole (roleScores job)).2.score)) ∧
    (∀ job, (bestRole (roleScores job)).2.score < 3/10 →
      ruleBasedClassification job =
        (JobRole.OTHER, 9/10, Analysis.ruleBased (roleScores job))) ∧
    (∀ job, (∀ rp ∈ rolePatterns, matchedPrimary (jobText job) rp.2 = [] ∧
        matchedSecondary (jobText job) rp.2 = []) →
      (ruleBasedClassification job).1 = JobRole.OTHER ∧
      (ruleBasedClassification job).2.1 = 9/10) := by
  refine ⟨?_, ?_, ?_⟩
  · intro job h
    refine ⟨?_, bestRole_mem _ (roleScores_ne_nil job),
      fun x hx => score_le_bestRole _ x hx⟩
    unfold ruleBasedClassification
    rw [if_neg h]
  · intro job h
    unfold ruleBasedClassification
    rw [if_pos h]
  · intro job h
    have hzero : ∀ x ∈ roleScores job, x.2.score = 0 := by
      intro x hx
      rcases roleScores_mem_structure job x hx with ⟨rp, hrp, hs⟩
      rw [hs]
      exact normalizedScore_eq_zero_of_no_match _ _ (h rp hrp).1 (h rp hrp).2
    have hbest : (bestRole (roleScores job)).2.score = 0 :=
      hzero _ (bestRole_mem _ (roleScores_ne_nil job))
    unfold ruleBasedClassification
    rw [if_pos (by rw [hbest]; norm_num)]
    exact ⟨rfl, rfl⟩

/-- Witness for C2: the keyword-free posting `chefJob` is classified
`(OTHER, 0.9)` by the rule stage. -/
theorem rule_stage_best_role_or_other_witness :
    (ruleBasedClassification chefJob).1 = JobRole.OTHER ∧
    (ruleBasedClassification chefJob).2.1 = 9/10 := by
  refine rule_stage_best_role_or_other.2.2 chefJob ?_
  intro rp hrp
  fin_cases hrp <;> exact ⟨by decide, by decide⟩

/-- C3: `classify_job` returns the rule verdict unchanged, without
invoking the model stage, exactly when the rule confidence exceeds
`0.8`; the model stage runs exactly when the rule confidence is at
most `0.8`. -/
theorem short_circuit_skips_model :
    (∀ job resp, (ruleBasedClassification job).2.1 > 8/10 →
      classifyJob job resp = (ruleBasedClassification job, false)) ∧
    (∀ job resp,
      (classifyJob job resp).2 = true ↔
        (ruleBasedClassification job).2.1 ≤ 8/10) := by
  constructor
  · intro job resp h
    unfold classifyJob
    rw [if_pos h]
  · intro job resp
    unfold classifyJob
    by_cases h : (ruleBasedClassification job).2.1 > 8/10
    · rw [if_pos h]
      simp [not_lt.2, h]
    · rw [if_neg h]
      simp [not_lt.1 h]

/-- Witness for C3: `chefJob` has rule confidence `0.9 > 0.8`, so the
model response is never consulted and the rule verdict is returned. -/
theorem short_circuit_skips_model_witness :
    classifyJob chefJob (AIResponse.failure "boom") =
      (ruleBasedClassification chefJob, false) :=
  short_circuit_skips_model.1 chefJob (AIResponse.failure "boom")
    (by rw [rule_chef]; norm_num)

lemma combine_conf_bounds (rule ai : JobRole × ℚ × Analysis)
    (hr0 : 0 ≤ rule.2.1) (hr1 : rule.2.1 ≤ 1)
    (ha0 : 0 ≤ ai.2.1) (ha1 : ai.2.1 ≤ 1) :
    0 ≤ (combineClassificationResults rule ai).2.1 ∧
    (combineClassificationResults rule ai).2.1 ≤ 1 := by
  unfold combineClassificationResults
  split
  · dsimp only
    constructor
    · linarith
    · linarith
  · split
    · dsimp only
      exact ⟨hr0, hr1⟩
    · dsimp only
      exact ⟨ha0, ha1⟩

lemma aiPowered_conf_bounds (resp : AIResponse)
    (h : ∀ r c re kf, resp = AIResponse.success r c re kf → 0 ≤ c ∧ c ≤ 1) :
    0 ≤ (aiPoweredClassification resp).2.1 ∧
    (aiPoweredClassification resp).2.1 ≤ 1 := by
  cases resp with
  | failure e =>
    unfold aiPoweredClassification
    norm_num
  | success r c re kf =>
    have hc := h r c re kf rfl
    unfold aiPoweredClassification
    exact hc

/-- C4 (amended): whenever the parsed model confidence lies in `[0,1]`
(every call failure yields `0.3`, which does), the final verdict's
confidence lies in `[0,1]`; and every posting receives exactly one
label from the closed `JobRole` enumeration.  Unamended the claim is
false: `_ai_powered_classification` does not clamp the model
confidence (see the counterexample). -/
theorem verdict_confidence_in_unit_interval :
    (∀ job resp,
      (∀ r c re kf, resp = AIResponse.success r c re kf → 0 ≤ c ∧ c ≤ 1) →
      0 ≤ (classifyJob job resp).1.2.1 ∧ (classifyJob job resp).1.2.1 ≤ 1) ∧
    (∀ job resp, (classifyJob job resp).1.1 ∈
      [JobRole.AI_ENGINEER, JobRole.CLOUD_ENGINEER, JobRole.DATA_SCIENTIST,
        JobRole.SECURITY_ANALYST, JobRole.OTHER]) := by
  constructor
  · intro job resp h
    unfold classifyJob
    split
    · exact ⟨ruleConf_nonneg job, ruleConf_le_one job⟩
    · exact combine_conf_bounds _ _ (ruleConf_nonneg job) (ruleConf_le_one job)
        (aiPowered_conf_bounds resp h).1 (aiPowered_conf_bounds resp h).2
  · intro job resp
    cases (classifyJob job resp).1.1 <;> simp

/-- Witness for C4: the bounds at a concrete posting and a failing
model call. -/
theorem verdict_confidence_in_unit_interval_witness :
    0 ≤ (classifyJob chefJob (AIResponse.failure "e")).1.2.1 ∧
    (classifyJob chefJob (AIResponse.failure "e")).1.2.1 ≤ 1 :=
  verdict_confidence_in_unit_interval.1 chefJob (AIResponse.failure "e")
    (fun _ _ _ _ h => nomatch h)

/-- Counterexample for C4 as stated: a model response carrying
confidence `1.5` propagates unclamped into the final verdict of
`classify_job`, whose confidence then exceeds `1`. -/
theorem verdict_confidence_counterexample :
    1 < (classifyJob dsJob (AIResponse.success "ai_engineer" (3/2) "" [])).1.2.1 := by
  rw [classify_ds_success (3/2) "" [] (by norm_num)]
  norm_num

/-- C5: `should_apply_to_job` returns `(False, role, confidence)`
exactly when the classified role is `OTHER` or the confidence is below
the threshold (default `0.6`), and `(True, role, confidence)`
otherwise; concretely it rejects `(OTHER, 0.9)`, rejects
`(AI_ENGINEER, 0.55)` and accepts `(AI_ENGINEER, 0.61)` under the
default threshold. -/
theorem should_apply_gate :
    (∀ job resp mc,
      ((shouldApplyToJob job resp mc).1 = false ↔
        ((classifyJob job resp).1.1 = JobRole.OTHER ∨
          (classifyJob job resp).1.2.1 < mc)) ∧
      (shouldApplyToJob job resp mc).2 =
        ((classifyJob job resp).1.1, (classifyJob job resp).1.2.1)) ∧
    defaultMinConfidence = 6/10 ∧
    shouldApplyToJob chefJob (AIResponse.failure "x") defaultMinConfidence =
      (false, JobRole.OTHER, 9/10) ∧
    shouldApplyToJob dsJob (AIResponse.success "ai_engineer" (11/20) "" [])
      defaultMinConfidence = (false, JobRole.AI_ENGINEER, 11/20) ∧
    shouldApplyToJob dsJob (AIResponse.success "ai_engineer" (61/100) "" [])
      defaultMinConfidence = (true, JobRole.AI_ENGINEER, 61/100) := by
  refine ⟨?_, rfl, shouldApply_chef _, shouldApply_ds_055, shouldApply_ds_061⟩
  intro job resp mc
  unfold shouldApplyToJob
  by_cases h : (classifyJob job resp).1.1 = JobRole.OTHER ∨
      (classifyJob job resp).1.2.1 < mc
  · rw [if_pos h]
    exact ⟨by simpa using h, rfl⟩
  · rw [if_neg h]
    exact ⟨by simpa using h, rfl⟩

/-- C6 (amended): `extract_salary` parses the salary text by taking the
MAXIMUM integer run (after removing commas), not the first; the filter
rejects exactly the postings with a non-empty salary text whose
extracted value is below the minimum; a non-empty salary text with no
digits parses to `0` and is rejected whenever the minimum is positive;
"Up to $45,000" parses to `45000` and is rejected under the configured
minimum `70000`. -/
theorem salary_filter_max_run_rejection :
    (∀ s, extract_salary s ∈ 0 :: (digitRuns s).map digitsToNat) ∧
    (∀ s, ∀ v ∈ (digitRuns s).map digitsToNat, v ≤ extract_salary s) ∧
    (∀ s m, salaryFilterRejects s m = true ↔ (s ≠ "" ∧ extract_salary s < m)) ∧
    (∀ s m, s ≠ "" → 0 < m → (∀ c ∈ s.data, c.isDigit = false) →
      salaryFilterRejects s m = true) ∧
    configSalaryMin = 70000 ∧
    salaryFilterRejects "Up to $45,000" configSalaryMin = true ∧
    extract_salary "Up to $45,000" = 45000 := by
  refine ⟨?_, ?_, ?_, ?_, rfl, by decide, by decide⟩
  · intro s
    unfold extract_salary
    by_cases h : (digitRuns s).isEmpty
    · rw [if_pos h]
      exact List.mem_cons_self _ _
    · rw [if_neg h]
      rcases foldl_max_mem ((digitRuns s).map digitsToNat) 0 with h2 | h2
      · rw [h2]
        exact List.mem_cons_self _ _
      · exact List.mem_cons_of_mem _ h2
  · intro s v hv
    unfold extract_salary
    rw [if_neg]
    · exact mem_le_foldl_max _ 0 v hv
    · intro he
      rw [List.isEmpty_iff] at he
      rw [he] at hv
      cases hv
  · intro s m
    unfold salaryFilterRejects
    by_cases hs : s = ""
    · rw [if_pos hs]
      simp [hs]
    · rw [if_neg hs, decide_eq_true_iff]
      simp [hs]
  · intro s m hs hm hdig
    have h1 : ∀ c ∈ (removeCommas s).data, c.isDigit = false := by
      intro c hc
      unfold removeCommas at hc
      exact hdig c (List.mem_filter.1 hc).1
    have h2 : digitRuns s = [] := by
      unfold digitRuns
      exact digitRunsAux_nil_of_no_digit _ h1
    unfold salaryFilterRejects
    rw [if_neg hs, decide_eq_true_iff]
    unfold extract_salary
    rw [h2]
    simpa using hm

/-- Witness for C6: the hypothetical conjuncts at concrete inputs — a
digit-free salary text is rejected, and the runs of a two-number range
are all bounded by the extracted maximum. -/
theorem salary_filter_max_run_rejection_witness :
    salaryFilterRejects "competitive pay" 70000 = true ∧
    (50000 ∈ (digitRuns "50000 to 90000").map digitsToNat →
      50000 ≤ extract_salary "50000 to 90000") := by
  constructor
  · exact salary_filter_max_run_rejection.2.2.2.1 "competitive pay" 70000
      (by decide) (by norm_num) (by decide)
  · exact salary_filter_max_run_rejection.2.1 "50000 to 90000" 50000

/-- Counterexample for C6 as stated: on salary text
"50000 to 90000" with minimum `70000`, the claimed first-integer-run
parse would reject (first run `50000 < 70000`), but the code takes the
maximum run `90000` and does not reject. -/
theorem salary_filter_first_run_counterexample :
    salaryFilterRejects "50000 to 90000" 70000 = false ∧
    specSalaryFilterRejects "50000 to 90000" 70000 = true ∧
    firstIntRun "50000 to 90000" = 50000 ∧
    extract_salary "50000 to 90000" = 90000 :=
  ⟨by decide, by decide, by decide, by decide⟩

/-- C7 (amended): in the apply-button search and the personal-info
field fill, an element is accepted and acted on only if it is both
displayed and enabled at the time of acceptance.  Within the selector
strategy of the apply-button search an accepted element is its
selector's first match in DOM order; within the text-search strategy,
and within the field fill's winning selector, it is the first
displayed-and-enabled match in DOM order.  The container heuristic,
however, scans a container's button children before its anchor
children, so a qualifying anchor earlier in DOM order is passed over
for a later button (demonstrated below on a concrete container).  The
file-upload strategy checks only visibility — it uploads to every
displayed file input, enabled or not (see the counterexample). -/
theorem element_acceptance_requires_visible_enabled :
    (∀ page e, findAndClickApplyButton page = some e →
      e.displayed = true ∧ e.enabled = true) ∧
    (∀ page ft v e w, fillFieldByType page ft v = some (e, w) →
      (e.displayed = true ∧ e.enabled = true) ∧ w = v) ∧
    (∀ page ft v e w, fillFieldByType page ft v = some (e, w) →
      ∃ s ∈ generateFieldSelectors ft, ∃ l1 l2,
        findElements page s = l1 ++ e :: l2 ∧
        ∀ x ∈ l1, (x.displayed && x.enabled) = false) ∧
    (∀ page e, tryClickSelectors applySelectors page = some e →
      ∃ s ∈ applySelectors, findElement? page s = some e) ∧
    (∀ page e, tryClickTexts textSearches page = some e →
      ∃ t ∈ textSearches, ∃ l1 l2,
        findElements page (Selector.textSearch t) = l1 ++ e :: l2 ∧
        ∀ x ∈ l1, (x.displayed && x.enabled) = false) ∧
    (containerButtonOk applyAnchor = true ∧
      tryClickContainers containerSelectors
        [⟨jobActionsContainer, [applyAnchor, containerButton]⟩] =
        some containerButton) ∧
    (∀ page x, x ∈ handleFileUploads page → x.1.displayed = true) ∧
    (∀ page fi,
      fi ∈ findElements page (Selector.attrEquals "input" "type" "file") →
      fi.displayed = true →
      (fi, classifyFileInput fi) ∈ handleFileUploads page) := by
  refine ⟨findAndClickApplyButton_ok, ?_, ?_,
    fun page e h => tryClickSelectors_first applySelectors page e h,
    fun page e h => tryClickTexts_first textSearches page e h,
    ⟨by decide, by decide⟩, ?_, ?_⟩
  · intro page ft v e w h
    unfold fillFieldByType at h
    cases hf : fillFieldAux (generateFieldSelectors ft) page with
    | none =>
      rw [hf] at h
      cases h
    | some x =>
      rw [hf] at h
      rw [Option.map_some', Option.some_inj, Prod.mk.injEq] at h
      obtain ⟨rfl, rfl⟩ := h
      exact ⟨fillFieldAux_ok _ _ _ hf, rfl⟩
  · intro page ft v e w h
    unfold fillFieldByType at h
    cases hf : fillFieldAux (generateFieldSelectors ft) page with
    | none =>
      rw [hf] at h
      cases h
    | some x =>
      rw [hf] at h
      rw [Option.map_some', Option.some_inj, Prod.mk.injEq] at h
      obtain ⟨rfl, rfl⟩ := h
      exact fillFieldAux_first _ _ _ hf
  · intro page x hx
    unfold handleFileUploads at hx
    rcases List.mem_map.1 hx with ⟨fi, hfi, rfl⟩
    simpa using (List.mem_filter.1 hfi).2
  · intro page fi hmem hd
    unfold handleFileUploads
    exact List.mem_map.2 ⟨fi, List.mem_filter.2 ⟨hmem, by simpa using hd⟩, rfl⟩

/-- Witness for C7: on a one-button page the clicked apply element is
displayed and enabled. -/
theorem element_acceptance_requires_visible_enabled_witness :
    applyBtn.displayed = true ∧ applyBtn.enabled = true :=
  element_acceptance_requires_visible_enabled.1 [⟨applyBtn, []⟩] applyBtn
    (by decide)

/-- Counterexample for C7 as stated: `_handle_file_uploads` acts on a
file input that is displayed but NOT enabled — the only state it
checks is `is_displayed()`. -/
theorem file_upload_acts_on_disabled_input :
    handleFileUploads [disabledResumeInput] =
      [(disabledResumeInput, UploadKind.resume)] ∧
    disabledResumeInput.enabled = false :=
  ⟨by decide, rfl⟩

/-- C9: a job URL maps to at most one `ApplicationRecord` (a duplicate
insert leaves the store unchanged and uniqueness of URLs is
preserved); after `add_application` — success or failure —
`has_applied_to_job` returns true for that URL; and the driver loop
checks `has_applied` before each attempt, so an already-recorded URL
is never attempted, and no URL is ever attempted twice. -/
theorem url_dedup_and_skip :
    (∀ store job s, store.any (fun r => r.job_url = job.url) = true →
      addApplication store job s = store) ∧
    (∀ store job s, hasAppliedToJob (addApplication store job s) job.url = true) ∧
    (∀ store job s, (store.map (fun r => r.job_url)).Nodup →
      ((addApplication store job s).map (fun r => r.job_url)).Nodup) ∧
    (∀ outcome jobs store u, hasAppliedToJob store u = true →
      u ∉ (runJobs outcome jobs store).2) ∧
    (∀ outcome jobs store, (runJobs outcome jobs store).2.Nodup) :=
  ⟨addApplication_of_dup, hasApplied_addApplication_self, nodup_addApplication,
    not_mem_attempted, attempted_nodup⟩

/-- Witness for C9: with `chefJob`'s URL already recorded, the driver
loop never attempts it again. -/
theorem url_dedup_and_skip_witness :
    "https://bistro.example/jobs/1" ∉
      (runJobs (fun _ => true) [chefJob] [rec1]).2 :=
  url_dedup_and_skip.2.2.2.1 (fun _ => true) [chefJob] [rec1]
    "https://bistro.example/jobs/1" (by decide)

lemma textareaContext_eq (e : Element) :
    textareaContext e =
      lowerStr (if e.placeholder ≠ "" then e.placeholder
        else if e.name ≠ "" then e.name else e.id) := by
  unfold textareaContext pyOr
  have hn : ("" ++ e.name : String) = e.name := rfl
  have hi : ("" ++ e.id : String) = e.id := rfl
  rw [hn, hi]
  by_cases hp : e.placeholder = "" <;> by_cases hname : e.name = "" <;>
    by_cases hid : e.id = "" <;> simp [hp, hname, hid]

/-- C10: because `+` binds tighter than `or` in the context expression
of `_add_cover_letter_text`, the context checked for trigger words is
exactly the first non-empty attribute among placeholder, name and id —
never their concatenation; hence a visible, enabled textarea whose
non-empty placeholder has no trigger word is skipped even when its
name or id says "cover"/"letter"; and at most one textarea receives
the cover-letter text. -/
theorem cover_letter_context_first_nonempty :
    (∀ e : Element, textareaContext e =
      lowerStr (if e.placeholder ≠ "" then e.placeholder
        else if e.name ≠ "" then e.name else e.id)) ∧
    (∃ e : Element,
      textareaContext e ≠ lowerStr (e.placeholder ++ e.name ++ e.id)) ∧
    (∀ page cl (e : Element), e.displayed = true → e.enabled = true →
      e.placeholder ≠ "" →
      (∀ w ∈ coverLetterTriggers,
        strContainsSub (lowerStr e.placeholder) w = false) →
      ∀ w, addCoverLetterText page cl ≠ some (e, w)) ∧
    (∀ page cl x y, addCoverLetterText page cl = some x →
      addCoverLetterText page cl = some y → x = y) := by
  refine ⟨textareaContext_eq, ⟨decoyTextarea, by decide⟩, ?_, ?_⟩
  · intro page cl e _ _ hp htrig w h
    unfold addCoverLetterText at h
    cases hf : (findElements page (Selector.tagSel "textarea")).find? (fun ta =>
        ta.displayed && ta.enabled &&
          coverLetterTriggers.any (fun w => strContainsSub (textareaContext ta) w)) with
    | none =>
      rw [hf] at h
      cases h
    | some x =>
      rw [hf] at h
      rw [Option.map_some', Option.some_inj, Prod.mk.injEq] at h
      obtain ⟨rfl, rfl⟩ := h
      have hpred := List.find?_some hf
      have hany := (bool_and_split hpred).2
      rcases List.any_eq_true.1 hany with ⟨t, ht, htc⟩
      have hctx : textareaContext x = lowerStr x.placeholder := by
        rw [textareaContext_eq, if_pos hp]
      rw [hctx] at htc
      rw [htrig t ht] at htc
      cases htc
  · intro page cl x y hx hy
    rw [hx, Option.some_inj] at hy
    exact hy

/-- Witness for C10: a page whose first textarea has a trigger-free
placeholder but name `cover_letter` — the cover letter is NOT inserted
there (it lands in the second textarea, whose placeholder mentions
it). -/
theorem cover_letter_context_first_nonempty_witness :
    addCoverLetterText [decoyTextarea, coverTextarea] "Dear team" ≠
      some (decoyTextarea, "Dear team") :=
  cover_letter_context_first_nonempty.2.2.1 [decoyTextarea, coverTextarea]
    "Dear team" decoyTextarea rfl rfl (by decide) (by decide) "Dear team"

/-- C8: the keyword score is normalized as
`raw_score / (2*|primary| + |secondary|)` clamped below at `0`, always
lies in `[0, 1]`, and is a deterministic, side-effect-free function of
the (text, profile) pair — identical inputs give identical scores and
matched-keyword lists. -/
theorem keyword_score_bounds_and_determinism :
    (∀ text p, 0 ≤ normalizedScore text p ∧ normalizedScore text p ≤ 1) ∧
    (∀ text p, maxPossibleScore p ≠ 0 →
      normalizedScore text p =
        max 0 ((rawScore text p : ℚ) / (maxPossibleScore p : ℚ))) ∧
    (∀ t1 t2 (p1 p2 : RolePattern), t1 = t2 → p1 = p2 →
      normalizedScore t1 p1 = normalizedScore t2 p2 ∧
      matchedKeywords t1 p1 = matchedKeywords t2 p2) := by
  refine ⟨fun text p => ⟨normalizedScore_nonneg text p, normalizedScore_le_one text p⟩,
    ?_, ?_⟩
  · intro text p h
    unfold normalizedScore
    rw [if_pos (Nat.pos_of_ne_zero h)]
  · rintro t1 t2 p1 p2 rfl rfl
    exact ⟨rfl, rfl⟩

/-- Witness for C8: the normalization identity at a concrete (text,
profile) pair with non-zero denominator. -/
theorem keyword_score_bounds_and_determinism_witness :
    normalizedScore (jobText chefJob) dataScientistPattern =
      max 0 ((rawScore (jobText chefJob) dataScientistPattern : ℚ) /
        (maxPossibleScore dataScientistPattern : ℚ)) :=
  keyword_score_bounds_and_determinism.2.1 (jobText chefJob) dataScientistPattern
    (by decide)

end AutoApply




